import Mathlib

/-!
Verification of the frame-source dispatch and detection-result pipeline of
`detect_goose.py` (function `run`) against its natural-language specification.

The Python code is shallowly embedded: pure fragments become Lean functions,
the stateful parts (CSV file, per-stream video-writer registry, the class-count
array `gNum`, the inference loop) become explicit state passing, and fallible
operations (Python exceptions such as `IndexError` on list assignment and
`ZeroDivisionError`) return `Option`/`Except`.  Machine floats of the original
are modelled with exact rationals `ℚ`.
-/

namespace DetectGoose

/-! ## Source classifier (detect_goose.py lines 152-159, 173-180)

`run` derives, purely from the textual form of `source`, the booleans
`is_file`, `is_url`, `webcam`, `screenshot`, and then dispatches to exactly one
of `LoadStreams` / `LoadScreenshots` / `LoadImages`.  The image/video extension
lists `IMG_FORMATS + VID_FORMATS` live in `utils.dataloaders` and are taken
here as a parameter `fmts`. -/

/-- Model of Python `str.isnumeric()` (restricted to ASCII digits, which is the
only difference from CPython and does not affect any claim): a non-empty string
all of whose characters are digits. -/
def str_isnumeric (s : String) : Bool :=
  !s.isEmpty && s.all Char.isDigit

/-- `source.lower().startswith(("rtsp://", "rtmp://", "http://", "https://"))`. -/
def is_url (source : String) : Bool :=
  (source.toLower).startsWith "rtsp://" || (source.toLower).startsWith "rtmp://" ||
    (source.toLower).startsWith "http://" || (source.toLower).startsWith "https://"

/-- Model of `pathlib.Path(s).name`: the final path component (posix separators,
trailing slashes ignored). -/
def path_name (s : String) : String :=
  ((s.splitOn "/").filter (fun part => part != "")).getLastD ""

/-- Model of `pathlib.Path(s).suffix`: the extension of the final component,
i.e. the part of the name from its last dot on, provided that dot is neither
the first nor the last character of the name. -/
def path_suffix (s : String) : String :=
  let name := path_name s
  let parts := name.splitOn "."
  let last := parts.getLastD ""
  if 2 ≤ parts.length ∧ last ≠ "" ∧ last.length + 1 < name.length then
    "." ++ last
  else ""

/-- `Path(source).suffix[1:] in (IMG_FORMATS + VID_FORMATS)` with the combined
extension list passed as `fmts`. -/
def is_file (fmts : List String) (s : String) : Bool :=
  fmts.contains ((path_suffix s).drop 1)

/-- `source.isnumeric() or source.endswith(".streams") or (is_url and not is_file)`. -/
def webcam (fmts : List String) (source : String) : Bool :=
  str_isnumeric source || source.endsWith ".streams" ||
    (is_url source && !is_file fmts source)

/-- `source.lower().startswith("screen")`. -/
def screenshot (source : String) : Bool :=
  (source.toLower).startsWith "screen"

/-- The three ingestion modes of the dataloader dispatch. -/
inductive Mode
  | stream
  | screen
  | files
deriving DecidableEq, Repr

/-- The dataloader dispatch of `run`: `if webcam: LoadStreams`
`elif screenshot: LoadScreenshots` `else: LoadImages`. -/
def selectMode (fmts : List String) (source : String) : Mode :=
  if webcam fmts source then Mode.stream
  else if screenshot source then Mode.screen
  else Mode.files

/-! ## CSV sink (detect_goose.py lines 218-228, 264-266)

The filesystem state of `predictions.csv` is `none` when the file does not
exist, `some rows` when it exists with the given rows.  Crucially,
`open(csv_path, mode="a")` creates the file when it is missing, and only
afterwards does the code test `csv_path.is_file()`. -/

/-- One row of predictions.csv. -/
inductive CsvRow
  | header
  | data (image_name prediction confidence : String)
deriving DecidableEq, Repr

/-- Filesystem state of `predictions.csv`: `none` = the file does not exist. -/
abbrev CsvFile := Option (List CsvRow)

/-- `open(csv_path, mode="a", newline="")`: creates the file (empty) when it is
missing and positions the write cursor at the end; the resulting on-disk
content is returned. -/
def openAppend (f : CsvFile) : List CsvRow :=
  f.getD []

/-- `csv_path.is_file()`. -/
def csv_is_file (f : CsvFile) : Bool :=
  f.isSome

/-- `write_to_csv(image_name, prediction, confidence)` acting on the filesystem
state of `predictions.csv`: open in append mode (which creates the file), then
`if not csv_path.is_file(): writer.writeheader()`, then write the data row. -/
def write_to_csv (f : CsvFile) (image_name prediction confidence : String) : CsvFile :=
  let afterOpen : CsvFile := some (openAppend f)
  let rows := afterOpen.getD []
  let rows := if csv_is_file afterOpen then rows else rows ++ [CsvRow.header]
  some (rows ++ [CsvRow.data image_name prediction confidence])

/-! ## Claim theorems (first group) -/

/-- Claim C6 (confirmed): for every source descriptor, exactly one ingestion
mode is selected, as a pure function of the descriptor's textual form, with the
priority order of the spec: numeric string, or a `.streams` suffix, or a
network URL whose extension is not a known image/video extension selects
webcam/live-stream mode; otherwise a `screen` prefix selects screenshot mode;
otherwise file-sequence mode. -/
theorem source_mode_selection (fmts : List String) (src : String) :
    (selectMode fmts src = Mode.stream ↔
      (str_isnumeric src = true ∨ src.endsWith ".streams" = true ∨
        (is_url src = true ∧ is_file fmts src = false))) ∧
    (selectMode fmts src = Mode.screen ↔
      (webcam fmts src = false ∧ screenshot src = true)) ∧
    (selectMode fmts src = Mode.files ↔
      (webcam fmts src = false ∧ screenshot src = false)) := by
  have hw : webcam fmts src = true ↔
      (str_isnumeric src = true ∨ src.endsWith ".streams" = true ∨
        (is_url src = true ∧ is_file fmts src = false)) := by
    simp [webcam, Bool.or_eq_true, Bool.and_eq_true, Bool.not_eq_true', or_assoc]
  cases h1 : webcam fmts src <;> cases h2 : screenshot src <;>
    simp_all [selectMode]

/-- Claim C1 (code_bug): the first call of `write_to_csv` in a fresh run
directory is claimed to create `predictions.csv` with a header row.  In fact
`open(csv_path, mode="a")` creates the file before `csv_path.is_file()` is
consulted, so the header-writing branch is dead code: the first call creates a
file holding only the data row, and every call (first or later) appends exactly
one data row and never a header. -/
theorem write_to_csv_first_write_has_no_header :
    (∀ n p c : String, write_to_csv none n p c = some [CsvRow.data n p c]) ∧
    (∀ (f : CsvFile) (n p c : String),
      write_to_csv f n p c = some (openAppend f ++ [CsvRow.data n p c])) :=
  ⟨fun _ _ _ => rfl, fun _ _ _ _ => rfl⟩

/-! ## Detections and the class-count array gNum
(detect_goose.py lines 186, 250-254, 328-333)

A detection after rescaling and NMS is `(*xyxy, conf, cls)`; coordinates and
confidence are modelled with exact rationals, the class index with a natural
number (`int(cls)` with non-negative class labels).  The class-count array is
initialized as the literal `gNum=[0,0,0]` — its length does NOT depend on the
model's class-name table — and observed entries are assigned the string
`f"{n}"`, so an entry is either a Python int (initial 0) or a str. -/

/-- One detection: absolute corner box in original-frame pixels, confidence,
class index. -/
structure Detection where
  x1 : ℚ
  y1 : ℚ
  x2 : ℚ
  y2 : ℚ
  conf : ℚ
  cls : ℕ
deriving DecidableEq, Repr

/-- One entry of the `gNum` list: Python dynamic typing lets an entry be the
initial int `0` or a string `f"{n}"` after an assignment. -/
inductive GEntry
  | int (n : ℤ)
  | str (s : String)
deriving DecidableEq, Repr

/-- Discriminator: is the entry an integer? -/
def GEntry.isInt : GEntry → Bool
  | .int _ => true
  | .str _ => false

/-- The distinct class indices of `det[:, 5]` (membership view). -/
def classesOf (det : List Detection) : List ℕ :=
  (det.map (fun d => d.cls)).dedup

/-- `det[:, 5].unique()`: torch returns the distinct values in sorted order. -/
def uniqueClasses (det : List Detection) : List ℕ :=
  (det.map (fun d => d.cls)).dedup.insertionSort (· ≤ ·)

/-- `(det[:, 5] == c).sum()`: the number of detections of class `c`. -/
def countClass (det : List Detection) (c : ℕ) : ℕ :=
  (det.filter (fun d => d.cls == c)).length

/-- Python list item assignment `g[c] = v`: raises `IndexError` (modelled as
`none`) when the index is out of range. -/
def setEntry (g : List GEntry) (c : ℕ) (v : GEntry) : Option (List GEntry) :=
  if c < g.length then some (g.set c v) else none

/-- The body of `for c in det[:, 5].unique(): gNum[int(c)] = f"{n}"` unrolled
over the list of unique classes. -/
def setClasses (det : List Detection) : List ℕ → List GEntry → Option (List GEntry)
  | [], g => some g
  | c :: cs, g =>
    match setEntry g c (GEntry.str (toString (countClass det c))) with
    | some g1 => setClasses det cs g1
    | none => none

/-- The per-image class-count update (lines 250-254), guarded by `if len(det):`
exactly as in `run`: an empty detection list leaves `gNum` untouched. -/
def updateGNum (g : List GEntry) (det : List Detection) : Option (List GEntry) :=
  if det.isEmpty then some g
  else setClasses det (uniqueClasses det) g

/-- `gNum=[0,0,0]` (line 186).  The model's class-name table `names` is in
scope at this point in `run` but is not consulted: the length is the literal 3. -/
def gNumInit (names : List String) : List GEntry :=
  [GEntry.int 0, GEntry.int 0, GEntry.int 0]

/-- Folding the per-image update over the images of a run. -/
def foldFrames : List GEntry → List (List Detection) → Option (List GEntry)
  | g, [] => some g
  | g, det :: rest =>
    match updateGNum g det with
    | some g1 => foldFrames g1 rest
    | none => none

/-- The final value of `gNum` after a run over `frames`, starting from
`gNum=[0,0,0]`. -/
def runCounts (names : List String) (frames : List (List Detection)) :
    Option (List GEntry) :=
  foldFrames (gNumInit names) frames

/-- The structured record of line 329-332:
`json.dumps({'imagePath': save_dir_abs, 'counts': gNum})`. -/
structure ResultJson where
  imagePath : String
  counts : List GEntry
deriving DecidableEq, Repr

/-- Building the final record from the absolute save directory and `gNum`. -/
def emitResult (save_dir_abs : String) (gNum : List GEntry) : ResultJson :=
  { imagePath := save_dir_abs, counts := gNum }

/-- The most recent frame (scanning from the end) whose detections contain
class `c` — a specification-side helper used to state last-write-wins. -/
def lastFrameWith (c : ℕ) : List (List Detection) → Option (List Detection)
  | [] => none
  | det :: rest =>
    match lastFrameWith c rest with
    | some d => some d
    | none => if (classesOf det).contains c then some det else none

/-- The value the code leaves in `gNum[c]`: the stringified per-frame count of
the most recent frame containing class `c`, or the initial integer 0. -/
def lastCount (frames : List (List Detection)) (c : ℕ) : GEntry :=
  match lastFrameWith c frames with
  | some det => GEntry.str (toString (countClass det c))
  | none => GEntry.int 0

/-! ### Helper lemmas about the gNum update -/

theorem setClasses_spec (det : List Detection) :
    ∀ (cs : List ℕ) (g : List GEntry), cs.Nodup → (∀ c ∈ cs, c < g.length) →
      ∃ g1, setClasses det cs g = some g1 ∧ g1.length = g.length ∧
        (∀ c ∈ cs, g1[c]? = some (GEntry.str (toString (countClass det c)))) ∧
        (∀ c, c ∉ cs → g1[c]? = g[c]?) := by
  intro cs
  induction cs with
  | nil =>
    intro g _ _
    exact ⟨g, rfl, rfl, by simp, fun _ _ => rfl⟩
  | cons c cs ih =>
    intro g hnd hlt
    have hc : c < g.length := hlt c (by simp)
    have hrest : ∀ x ∈ cs, x < (g.set c (GEntry.str (toString (countClass det c)))).length := by
      intro x hx
      simpa using hlt x (by simp [hx])
    obtain ⟨g1, hrun, hlen, hmem, hout⟩ :=
      ih (g.set c (GEntry.str (toString (countClass det c)))) hnd.of_cons hrest
    have hcnot : c ∉ cs := (List.nodup_cons.mp hnd).1
    refine ⟨g1, ?_, by simpa using hlen, ?_, ?_⟩
    · simp [setClasses, setEntry, hc, hrun]
    · intro x hx
      rcases List.mem_cons.mp hx with h | h
      · subst h
        rw [hout x hcnot]
        simp [List.getElem?_set_self hc]
      · exact hmem x h
    · intro x hx
      have hx1 : x ≠ c := fun h => hx (by simp [h])
      have hx2 : x ∉ cs := fun h => hx (by simp [h])
      rw [hout x hx2, List.getElem?_set_ne (fun h => hx1 h.symm)]

theorem uniqueClasses_nodup (det : List Detection) : (uniqueClasses det).Nodup :=
  ((List.perm_insertionSort _ _).nodup_iff).mpr (List.nodup_dedup _)

theorem mem_uniqueClasses (det : List Detection) (c : ℕ) :
    c ∈ uniqueClasses det ↔ c ∈ classesOf det := by
  unfold uniqueClasses classesOf
  exact ⟨fun h => List.mem_dedup.mp ((List.perm_insertionSort _ _).mem_iff.mp h) |> List.mem_dedup.mpr,
    fun h => (List.perm_insertionSort _ _).mem_iff.mpr h⟩

theorem updateGNum_spec (g : List GEntry) (det : List Detection)
    (h : ∀ d ∈ det, d.cls < g.length) :
    ∃ g1, updateGNum g det = some g1 ∧ g1.length = g.length ∧
      (∀ c ∈ classesOf det,
          g1[c]? = some (GEntry.str (toString (countClass det c)))) ∧
      (∀ c, c ∉ classesOf det → g1[c]? = g[c]?) := by
  by_cases hdet : det.isEmpty
  · refine ⟨g, by simp [updateGNum, hdet], rfl, ?_, fun _ _ => rfl⟩
    intro c hc
    rcases List.mem_dedup.mp hc with hmem
    rcases List.mem_map.mp hmem with ⟨d, hd, _⟩
    simp [List.isEmpty_iff.mp hdet] at hd
  · have hlt : ∀ c ∈ uniqueClasses det, c < g.length := by
      intro c hc
      rcases List.mem_map.mp (List.mem_dedup.mp ((mem_uniqueClasses det c).mp hc)) with ⟨d, hd, hcd⟩
      simpa [hcd] using h d hd
    obtain ⟨g1, hrun, hlen, hmem, hout⟩ :=
      setClasses_spec det (uniqueClasses det) g (uniqueClasses_nodup det) hlt
    refine ⟨g1, ?_, hlen, ?_, ?_⟩
    · simp [updateGNum, hdet, hrun]
    · intro c hc
      exact hmem c ((mem_uniqueClasses det c).mpr hc)
    · intro c hc
      exact hout c (fun hmem1 => hc ((mem_uniqueClasses det c).mp hmem1))

theorem foldFrames_spec :
    ∀ (frames : List (List Detection)) (g : List GEntry),
      (∀ det ∈ frames, ∀ d ∈ det, d.cls < g.length) →
      ∃ g1, foldFrames g frames = some g1 ∧ g1.length = g.length ∧
        ∀ c, c < g.length →
          g1[c]? = match lastFrameWith c frames with
            | some det => some (GEntry.str (toString (countClass det c)))
            | none => g[c]? := by
  intro frames
  induction frames with
  | nil =>
    intro g _
    exact ⟨g, rfl, rfl, fun c _ => rfl⟩
  | cons det rest ih =>
    intro g hall
    obtain ⟨g1, hup, hlen1, hmem1, hout1⟩ :=
      updateGNum_spec g det (hall det (by simp))
    have hrest : ∀ det2 ∈ rest, ∀ d ∈ det2, d.cls < g1.length := by
      intro det2 h2 d hd
      rw [hlen1]
      exact hall det2 (by simp [h2]) d hd
    obtain ⟨g2, hrun2, hlen2, hspec2⟩ := ih g1 hrest
    refine ⟨g2, ?_, by rw [hlen2, hlen1], ?_⟩
    · simp [foldFrames, hup, hrun2]
    · intro c hc
      have hc1 : c < g1.length := by rw [hlen1]; exact hc
      have := hspec2 c hc1
      rw [this]
      cases hfind : lastFrameWith c rest with
      | some d => simp [lastFrameWith, hfind]
      | none =>
        simp only [lastFrameWith, hfind]
        by_cases hmemc : c ∈ classesOf det
        · simp [hmemc, hmem1 c hmemc]
        · simp [hmemc, hout1 c hmemc]

/-! ### Claim theorems for the class-count table and the final record -/

/-- Claim C2, counterexample: the emitted `counts` array is NOT sized to the
model's class count and its entries are NOT all integers.  With a five-class
name table, one image, and two detections of class 0, the run's counts value is
the length-3 list `[str "2", int 0, int 0]`: length 3 ≠ 5, and the entry for
the observed class is a string, not an integer. -/
theorem counts_not_sized_to_model_classes :
    runCounts ["goose", "egg", "c2", "c3", "c4"]
        [[⟨0, 0, 4, 4, 9 / 10, 0⟩, ⟨1, 1, 3, 3, 8 / 10, 0⟩]] =
      some [GEntry.str "2", GEntry.int 0, GEntry.int 0] ∧
    (3 : ℕ) ≠ (["goose", "egg", "c2", "c3", "c4"] : List String).length ∧
    GEntry.isInt (GEntry.str "2") = false :=
  ⟨rfl, by decide, rfl⟩

/-- Claim C2 as amended: the final emitted record holds the output directory
path (key `imagePath`) and a counts array of fixed length 3 (the literal
`gNum=[0,0,0]`, independent of the model's class count); an entry stays the
integer 0 for a class never observed, and for an observed class it holds the
stringified per-frame count of the most recent frame containing that class. -/
theorem final_result_counts_spec (names : List String) (dir : String)
    (frames : List (List Detection))
    (h : ∀ det ∈ frames, ∀ d ∈ det, d.cls < 3) :
    ∃ g, runCounts names frames = some g ∧ g.length = 3 ∧
      (∀ c, c < 3 → g[c]? = some (lastCount frames c)) ∧
      emitResult dir g = { imagePath := dir, counts := g } := by
  obtain ⟨g, hrun, hlen, hspec⟩ :=
    foldFrames_spec frames (gNumInit names) (by simpa [gNumInit] using h)
  refine ⟨g, hrun, by simpa [gNumInit] using hlen, ?_, rfl⟩
  intro c hc
  have hgc := hspec c (by simpa [gNumInit] using hc)
  rw [hgc]
  unfold lastCount
  cases hf : lastFrameWith c frames with
  | some det => rfl
  | none => interval_cases c <;> rfl

/-- Witness for `final_result_counts_spec` at a concrete run: a single image
with one class-0 detection and a one-class name table. -/
theorem final_result_counts_spec_witness :
    (∀ det ∈ ([[⟨0, 0, 4, 4, 9 / 10, 0⟩]] : List (List Detection)),
      ∀ d ∈ det, d.cls < 3) ∧
    ∃ g, runCounts ["goose"] [[⟨0, 0, 4, 4, 9 / 10, 0⟩]] = some g ∧ g.length = 3 ∧
      (∀ c, c < 3 → g[c]? = some (lastCount [[⟨0, 0, 4, 4, 9 / 10, 0⟩]] c)) ∧
      emitResult "/abs/out" g = { imagePath := "/abs/out", counts := g } :=
  ⟨by decide, final_result_counts_spec ["goose"] "/abs/out" _ (by decide)⟩

/-- Claim C4 (confirmed): for an image with a non-empty detection set, each
class present has its `gNum` entry overwritten with the stringified per-image
count of that class (last-write-wins), and entries of classes absent from the
image keep their previous values. -/
theorem class_count_last_write_wins (g : List GEntry) (det : List Detection)
    (h1 : det ≠ []) (h2 : ∀ d ∈ det, d.cls < g.length) :
    classesOf det ≠ [] ∧
    ∃ g1, updateGNum g det = some g1 ∧ g1.length = g.length ∧
      (∀ c ∈ classesOf det,
        g1[c]? = some (GEntry.str (toString (countClass det c)))) ∧
      (∀ c, c ∉ classesOf det → g1[c]? = g[c]?) := by
  refine ⟨?_, updateGNum_spec g det h2⟩
  cases det with
  | nil => exact absurd rfl h1
  | cons d rest =>
    intro hnil
    have : d.cls ∈ classesOf (d :: rest) := List.mem_dedup.mpr (by simp)
    simp [hnil] at this

/-- Witness for `class_count_last_write_wins`: three detections of classes
1, 0, 1 against a fresh length-3 table. -/
theorem class_count_last_write_wins_witness :
    ([⟨0, 0, 2, 2, 1 / 2, 1⟩, ⟨0, 0, 3, 3, 3 / 4, 0⟩,
        ⟨1, 1, 4, 4, 2 / 3, 1⟩] : List Detection) ≠ [] ∧
    (classesOf [⟨0, 0, 2, 2, 1 / 2, 1⟩, ⟨0, 0, 3, 3, 3 / 4, 0⟩,
        ⟨1, 1, 4, 4, 2 / 3, 1⟩] ≠ [] ∧
      ∃ g1, updateGNum [GEntry.int 0, GEntry.int 0, GEntry.int 0]
            [⟨0, 0, 2, 2, 1 / 2, 1⟩, ⟨0, 0, 3, 3, 3 / 4, 0⟩,
              ⟨1, 1, 4, 4, 2 / 3, 1⟩] = some g1 ∧
        g1.length = ([GEntry.int 0, GEntry.int 0, GEntry.int 0] : List GEntry).length ∧
        (∀ c ∈ classesOf [⟨0, 0, 2, 2, 1 / 2, 1⟩, ⟨0, 0, 3, 3, 3 / 4, 0⟩,
            ⟨1, 1, 4, 4, 2 / 3, 1⟩],
          g1[c]? = some (GEntry.str (toString (countClass
            [⟨0, 0, 2, 2, 1 / 2, 1⟩, ⟨0, 0, 3, 3, 3 / 4, 0⟩,
              ⟨1, 1, 4, 4, 2 / 3, 1⟩] c)))) ∧
        (∀ c, c ∉ classesOf [⟨0, 0, 2, 2, 1 / 2, 1⟩, ⟨0, 0, 3, 3, 3 / 4, 0⟩,
            ⟨1, 1, 4, 4, 2 / 3, 1⟩] →
          g1[c]? = ([GEntry.int 0, GEntry.int 0, GEntry.int 0] : List GEntry)[c]?)) :=
  ⟨by decide, class_count_last_write_wins _ _ (by decide) (by decide)⟩

/-! ## Box coordinate conversions (detect_goose.py lines 243, 268-277)

`gn = torch.tensor(im0.shape)[[1, 0, 1, 0]]` is `(W, H, W, H)` for an original
frame of shape `(H, W, C)`.  For `save_format == 0` the box is converted with
`xyxy2xywh` and divided by `gn`; the round-trip direction multiplies back and
converts with `xywh2xyxy`.  Rationals model the float arithmetic exactly. -/

/-- Modelled from the spec: `utils.general.xyxy2xywh` (the repository module
`utils/general.py` is not included under `src/`) — corner coordinates to
center/width/height: `x = (x1+x2)/2`, `y = (y1+y2)/2`, `w = x2-x1`,
`h = y2-y1`. -/
def xyxy2xywh (x1 y1 x2 y2 : ℚ) : ℚ × ℚ × ℚ × ℚ :=
  ((x1 + x2) / 2, (y1 + y2) / 2, x2 - x1, y2 - y1)

/-- Modelled from the spec: `utils.general.xywh2xyxy` (same missing module) —
the inverse conversion, center/width/height to corner coordinates. -/
def xywh2xyxy (x y w h : ℚ) : ℚ × ℚ × ℚ × ℚ :=
  (x - w / 2, y - h / 2, x + w / 2, y + h / 2)

/-- The normalized center/size coordinates written for `save_format == 0`:
`(xyxy2xywh(xyxy) / gn)` with `gn = (W, H, W, H)`. -/
def normalizedXywh (W H x1 y1 x2 y2 : ℚ) : ℚ × ℚ × ℚ × ℚ :=
  let c := xyxy2xywh x1 y1 x2 y2
  (c.1 / W, c.2.1 / H, c.2.2.1 / W, c.2.2.2 / H)

/-- The round-trip back from normalized center/size to absolute corners:
multiply by `gn = (W, H, W, H)` and apply the inverse conversion. -/
def denormalizedXyxy (W H : ℚ) (c : ℚ × ℚ × ℚ × ℚ) : ℚ × ℚ × ℚ × ℚ :=
  xywh2xyxy (c.1 * W) (c.2.1 * H) (c.2.2.1 * W) (c.2.2.2 * H)

/-! ## Result sink: the per-detection export loop
(detect_goose.py lines 257-284)

`for *xyxy, conf, cls in reversed(det):` iterates the suppressed detections in
reverse list order; each iteration optionally appends a CSV row, a text-label
line, an overlay box and a crop file.  The loop is embedded as a fold over
`det.reverse` accumulating the produced artifacts in order. -/

/-- Two-digit zero padding for the fractional part of a formatted float. -/
def pad2 (n : ℕ) : String :=
  if n < 10 then "0" ++ toString n else toString n

/-- Model of Python `f"{x:.2f}"` on the rational model of the confidence:
round to two decimals (ties rounded up, which differs from binary-float
half-even formatting only on exact midpoints — no claim depends on a tie). -/
def fmt2 (q : ℚ) : String :=
  let n : ℤ := ⌊q * 100 + 1 / 2⌋
  let sign := if n < 0 then "-" else ""
  let m : ℕ := n.natAbs
  sign ++ toString (m / 100) ++ "." ++ pad2 (m % 100)

/-- `names[c]`: the class-name lookup (defaulting for out-of-table indices,
which no claim exercises). -/
def labelName (names : List String) (c : ℕ) : String :=
  names.getD c ""

/-- One line of a `labels/*.txt` file: `(cls, *coords, conf)` when `save_conf`
else `(cls, *coords)`. -/
structure TxtLine where
  cls : ℕ
  coords : List ℚ
  conf : Option ℚ
deriving DecidableEq, Repr

/-- The coordinate list of a text-label line: normalized center/size for
`save_format == 0`, else the corner coordinates divided by `gn`. -/
def txtCoords (save_format : ℕ) (W H : ℚ) (d : Detection) : List ℚ :=
  if save_format = 0 then
    let c := normalizedXywh W H d.x1 d.y1 d.x2 d.y2
    [c.1, c.2.1, c.2.2.1, c.2.2.2]
  else
    [d.x1 / W, d.y1 / H, d.x2 / W, d.y2 / H]

/-- The export switches of `run` that the per-detection loop consults. -/
structure SinkCfg where
  save_csv : Bool
  save_txt : Bool
  save_conf : Bool
  save_format : ℕ
  save_crop : Bool
  save_img : Bool
  view_img : Bool
  hide_labels : Bool
  hide_conf : Bool
deriving DecidableEq, Repr

/-- The overlay text of `annotator.box_label`: `None if hide_labels else
(names[c] if hide_conf else f"{names[c]} {conf:.2f}")`. -/
def overlayLabel (hide_labels hide_conf : Bool) (names : List String)
    (d : Detection) : Option String :=
  if hide_labels then none
  else if hide_conf then some (labelName names d.cls)
  else some (labelName names d.cls ++ " " ++ fmt2 d.conf)

/-- The artifacts appended while processing one image, each list in production
order. -/
structure Artifacts where
  csvRows : List (String × String × String)
  txtLines : List TxtLine
  overlayBoxes : List ((ℚ × ℚ × ℚ × ℚ) × Option String)
  cropFiles : List (String × String)
deriving DecidableEq, Repr

/-- The CSV row produced for one detection:
`write_to_csv(p.name, label, confidence_str)`. -/
def csvRowOf (names : List String) (p_name : String) (d : Detection) :
    String × String × String :=
  (p_name, labelName names d.cls, fmt2 d.conf)

/-- The text-label line produced for one detection. -/
def txtLineOf (cfg : SinkCfg) (W H : ℚ) (d : Detection) : TxtLine :=
  ⟨d.cls, txtCoords cfg.save_format W H d,
    if cfg.save_conf then some d.conf else none⟩

/-- The overlay box drawn for one detection. -/
def overlayOf (cfg : SinkCfg) (names : List String) (d : Detection) :
    (ℚ × ℚ × ℚ × ℚ) × Option String :=
  ((d.x1, d.y1, d.x2, d.y2), overlayLabel cfg.hide_labels cfg.hide_conf names d)

/-- The crop file written for one detection:
`save_dir / "crops" / names[c] / (p.stem + ".jpg")`. -/
def cropOf (names : List String) (p_stem : String) (d : Detection) :
    String × String :=
  (labelName names d.cls, p_stem ++ ".jpg")

/-- The body of the per-detection loop, in the source's branch order:
CSV row, text line, overlay box, crop. -/
def detStep (cfg : SinkCfg) (names : List String) (p_name p_stem : String)
    (W H : ℚ) (art : Artifacts) (d : Detection) : Artifacts :=
  let art := if cfg.save_csv then
      { art with csvRows := art.csvRows ++ [csvRowOf names p_name d] } else art
  let art := if cfg.save_txt then
      { art with txtLines := art.txtLines ++ [txtLineOf cfg W H d] } else art
  let art := if cfg.save_img || cfg.save_crop || cfg.view_img then
      { art with overlayBoxes := art.overlayBoxes ++ [overlayOf cfg names d] }
    else art
  let art := if cfg.save_crop then
      { art with cropFiles := art.cropFiles ++ [cropOf names p_stem d] } else art
  art

/-- `for *xyxy, conf, cls in reversed(det): ...` — the whole per-image export
loop. -/
def writeResults (cfg : SinkCfg) (names : List String) (p_name p_stem : String)
    (W H : ℚ) (det : List Detection) : Artifacts :=
  det.reverse.foldl (detStep cfg names p_name p_stem W H) ⟨[], [], [], []⟩

theorem writeResults_foldl (cfg : SinkCfg) (names : List String)
    (p_name p_stem : String) (W H : ℚ)
    (hcsv : cfg.save_csv = true) (htxt : cfg.save_txt = true)
    (himg : cfg.save_img = true) (hcrop : cfg.save_crop = true) :
    ∀ (l : List Detection) (acc : Artifacts),
      l.foldl (detStep cfg names p_name p_stem W H) acc =
        ⟨acc.csvRows ++ l.map (csvRowOf names p_name),
          acc.txtLines ++ l.map (txtLineOf cfg W H),
          acc.overlayBoxes ++ l.map (overlayOf cfg names),
          acc.cropFiles ++ l.map (cropOf names p_stem)⟩ := by
  intro l
  induction l with
  | nil =>
    intro acc
    cases acc
    simp
  | cons d rest ih =>
    intro acc
    rw [List.foldl_cons, ih]
    simp [detStep, hcsv, htxt, himg, hcrop]

/-- Claim C7 (confirmed): with the per-detection exports enabled, the CSV rows,
text-label lines, overlay boxes and crops of one image are produced by mapping
over `det.reverse`: the detections are processed in reverse list order (the
last detection produced by suppression first), and the `i`-th produced row
comes from detection `det.length - 1 - i`. -/
theorem detections_processed_in_reverse_order (cfg : SinkCfg)
    (names : List String) (p_name p_stem : String) (W H : ℚ)
    (det : List Detection)
    (hcsv : cfg.save_csv = true) (htxt : cfg.save_txt = true)
    (himg : cfg.save_img = true) (hcrop : cfg.save_crop = true) :
    (writeResults cfg names p_name p_stem W H det).csvRows
        = det.reverse.map (csvRowOf names p_name) ∧
    (writeResults cfg names p_name p_stem W H det).txtLines
        = det.reverse.map (txtLineOf cfg W H) ∧
    (writeResults cfg names p_name p_stem W H det).overlayBoxes
        = det.reverse.map (overlayOf cfg names) ∧
    (writeResults cfg names p_name p_stem W H det).cropFiles
        = det.reverse.map (cropOf names p_stem) ∧
    ∀ i, i < det.length →
      (writeResults cfg names p_name p_stem W H det).csvRows[i]? =
        (det[det.length - 1 - i]?).map (csvRowOf names p_name) := by
  have h := writeResults_foldl cfg names p_name p_stem W H hcsv htxt himg hcrop
    det.reverse ⟨[], [], [], []⟩
  unfold writeResults
  rw [h]
  refine ⟨by simp, by simp, by simp, by simp, ?_⟩
  intro i hi
  simp only [List.nil_append, List.getElem?_map]
  rw [List.getElem?_reverse (by simpa using hi)]

/-- Fully-enabled export configuration used by concrete witnesses. -/
def cfgAll : SinkCfg :=
  ⟨true, true, true, 0, true, true, true, false, false⟩

/-- A two-class name table used by concrete witnesses. -/
def namesGE : List String :=
  ["goose", "egg"]

/-- A concrete two-detection list used by concrete witnesses. -/
def detW : List Detection :=
  [⟨0, 0, 4, 4, 9 / 10, 0⟩, ⟨1, 1, 3, 3, 77 / 100, 1⟩]

/-- Witness for `detections_processed_in_reverse_order` at a concrete image. -/
theorem detections_processed_in_reverse_order_witness :
    (writeResults cfgAll namesGE "im.jpg" "im" 640 480 detW).csvRows
        = detW.reverse.map (csvRowOf namesGE "im.jpg") ∧
    (writeResults cfgAll namesGE "im.jpg" "im" 640 480 detW).txtLines
        = detW.reverse.map (txtLineOf cfgAll 640 480) ∧
    (writeResults cfgAll namesGE "im.jpg" "im" 640 480 detW).overlayBoxes
        = detW.reverse.map (overlayOf cfgAll namesGE) ∧
    (writeResults cfgAll namesGE "im.jpg" "im" 640 480 detW).cropFiles
        = detW.reverse.map (cropOf namesGE "im") ∧
    ∀ i, i < detW.length →
      (writeResults cfgAll namesGE "im.jpg" "im" 640 480 detW).csvRows[i]? =
        (detW[detW.length - 1 - i]?).map (csvRowOf namesGE "im.jpg") :=
  detections_processed_in_reverse_order cfgAll namesGE "im.jpg" "im" 640 480
    detW rfl rfl rfl rfl

/-- Claim C9 (confirmed): converting an absolute corner box to the normalized
center/width/height form written for `save_format == 0` (division by
`gn = (W, H, W, H)`) and converting back recovers the original box exactly in
the rational model of the float arithmetic (hence within floating-point
tolerance). -/
theorem box_normalization_round_trip (W H x1 y1 x2 y2 : ℚ)
    (hW : 0 < W) (hH : 0 < H) :
    denormalizedXyxy W H (normalizedXywh W H x1 y1 x2 y2) = (x1, y1, x2, y2) := by
  have hW0 : W ≠ 0 := ne_of_gt hW
  have hH0 : H ≠ 0 := ne_of_gt hH
  unfold denormalizedXyxy normalizedXywh xyxy2xywh xywh2xyxy
  simp only [Prod.mk.injEq]
  refine ⟨?_, ?_, ?_, ?_⟩ <;> field_simp <;> ring

/-- Witness for `box_normalization_round_trip` on a 640x480 frame. -/
theorem box_normalization_round_trip_witness :
    (0 : ℚ) < 640 ∧ (0 : ℚ) < 480 ∧
    denormalizedXyxy 640 480 (normalizedXywh 640 480 10 20 30 60)
      = (10, 20, 30, 60) :=
  ⟨by norm_num, by norm_num,
    box_normalization_round_trip 640 480 10 20 30 60 (by norm_num) (by norm_num)⟩

/-! ## Video writer registry (detect_goose.py lines 181, 296-313, 315-333)

`vid_path, vid_writer = [None] * bs, [None] * bs` holds one slot per stream
index; the claims are per-slot, so one `VidState` models a slot.  On each saved
video/stream frame: if the stored path differs from the new `save_path`, the
slot's writer (if any) is released and a new one is opened with fps/resolution
from the capture handle when present, else 30 fps and the annotated frame's own
dimensions; then the frame is written.  The code after the loop (lines
315-333) computes speeds and prints the JSON and performs no release. -/

/-- A capture handle: the `vid_cap.get(cv2.CAP_PROP_*)` values. -/
structure Capture where
  fps : ℚ
  width : ℕ
  height : ℕ
deriving DecidableEq, Repr

/-- The annotated frame `im0` as the writer logic consults it:
`im0.shape[1]` is the width, `im0.shape[0]` the height. -/
structure Frame0 where
  width : ℕ
  height : ℕ
deriving DecidableEq, Repr

/-- An open `cv2.VideoWriter` handle and the parameters it was opened with. -/
structure VW where
  path : String
  fps : ℚ
  width : ℕ
  height : ℕ
deriving DecidableEq, Repr

/-- One registry slot: `(vid_path[i], vid_writer[i])`. -/
structure VidState where
  vid_path : Option String
  vid_writer : Option VW
deriving DecidableEq, Repr

/-- Observable events on the writer registry, in order of occurrence. -/
inductive WEvent
  | opened (path : String) (fps : ℚ) (width height : ℕ)
  | released
  | wrote
deriving DecidableEq, Repr

/-- `str(Path(save_path).with_suffix(".mp4"))`: replace the extension of the
final component (or append when there is none). -/
def with_suffix_mp4 (p : String) : String :=
  (p.dropRight (path_suffix p).length) ++ ".mp4"

/-- Lines 301-313 for one slot: the `if vid_path[i] != save_path` reopen logic
followed by `vid_writer[i].write(im0)`. -/
def writeVideoFrame (st : VidState) (save_path : String)
    (vid_cap : Option Capture) (im0 : Frame0) : VidState × List WEvent :=
  if st.vid_path ≠ some save_path then
    let rel : List WEvent := match st.vid_writer with
      | some _ => [WEvent.released]
      | none => []
    let fwh : ℚ × ℕ × ℕ := match vid_cap with
      | some cap => (cap.fps, cap.width, cap.height)
      | none => (30, im0.width, im0.height)
    let sp := with_suffix_mp4 save_path
    (⟨some save_path, some ⟨sp, fwh.1, fwh.2.1, fwh.2.2⟩⟩,
      rel ++ [WEvent.opened sp fwh.1 fwh.2.1 fwh.2.2, WEvent.wrote])
  else
    (st, [WEvent.wrote])

/-- The video-saving part of the frame loop for one slot, over a sequence of
`(save_path, vid_cap, im0)` triples. -/
def runVideoPhase : VidState → List (String × Option Capture × Frame0) →
    VidState × List WEvent
  | st, [] => (st, [])
  | st, (sp, cap, im0) :: rest =>
    let r1 := writeVideoFrame st sp cap im0
    let r2 := runVideoPhase r1.1 rest
    (r2.1, r1.2 ++ r2.2)

/-- The code after the frame loop (lines 315-333: speed computation, optional
`strip_optimizer`, the JSON print): it never touches `vid_writer`, so the
registry state passes through unchanged and no writer event is emitted. -/
def postLoop (st : VidState) : VidState × List WEvent :=
  (st, [])

/-- The number of `opened` events in a trace. -/
def countOpened (evs : List WEvent) : ℕ :=
  (evs.filter (fun e => match e with
    | WEvent.opened _ _ _ _ => true
    | _ => false)).length

/-- The number of `released` events in a trace. -/
def countReleased (evs : List WEvent) : ℕ :=
  (evs.filter (fun e => match e with
    | WEvent.released => true
    | _ => false)).length

/-- The number of open handles held by a slot. -/
def openHandles (st : VidState) : ℕ :=
  if st.vid_writer.isSome then 1 else 0

/-! ### Helper lemmas about the writer registry -/

theorem countOpened_append (a b : List WEvent) :
    countOpened (a ++ b) = countOpened a + countOpened b := by
  simp [countOpened]

theorem countReleased_append (a b : List WEvent) :
    countReleased (a ++ b) = countReleased a + countReleased b := by
  simp [countReleased]

theorem writeVideoFrame_handles (st : VidState) (sp : String)
    (cap : Option Capture) (im0 : Frame0) :
    openHandles (writeVideoFrame st sp cap im0).1 +
        countReleased (writeVideoFrame st sp cap im0).2 =
      openHandles st + countOpened (writeVideoFrame st sp cap im0).2 := by
  by_cases h : st.vid_path ≠ some sp
  · cases hw : st.vid_writer <;>
      simp [writeVideoFrame, h, hw, openHandles, countOpened, countReleased]
  · simp [writeVideoFrame, h, openHandles, countOpened, countReleased]

theorem writeVideoFrame_isSome (st : VidState) (sp : String)
    (cap : Option Capture) (im0 : Frame0) (h : st.vid_writer.isSome = true) :
    (writeVideoFrame st sp cap im0).1.vid_writer.isSome = true := by
  by_cases hp : st.vid_path ≠ some sp
  · simp [writeVideoFrame, hp]
  · simpa [writeVideoFrame, hp] using h

theorem runVideoPhase_handles :
    ∀ (frames : List (String × Option Capture × Frame0)) (st : VidState),
      openHandles (runVideoPhase st frames).1 +
          countReleased (runVideoPhase st frames).2 =
        openHandles st + countOpened (runVideoPhase st frames).2 := by
  intro frames
  induction frames with
  | nil => intro st; simp [runVideoPhase, countOpened, countReleased]
  | cons f rest ih =>
    intro st
    obtain ⟨sp, cap, im0⟩ := f
    have h1 := writeVideoFrame_handles st sp cap im0
    have h2 := ih (writeVideoFrame st sp cap im0).1
    simp only [runVideoPhase, countOpened_append, countReleased_append]
    omega

theorem runVideoPhase_isSome :
    ∀ (frames : List (String × Option Capture × Frame0)) (st : VidState),
      st.vid_writer.isSome = true →
      (runVideoPhase st frames).1.vid_writer.isSome = true := by
  intro frames
  induction frames with
  | nil => intro st h; simpa [runVideoPhase] using h
  | cons f rest ih =>
    intro st h
    obtain ⟨sp, cap, im0⟩ := f
    exact ih _ (writeVideoFrame_isSome st sp cap im0 h)

theorem runVideoPhase_steady (sp : String) (cap : Option Capture) (im0 : Frame0)
    (w : VW) : ∀ N : ℕ,
      runVideoPhase ⟨some sp, some w⟩ (List.replicate N (sp, cap, im0)) =
        (⟨some sp, some w⟩, List.replicate N WEvent.wrote) := by
  intro N
  induction N with
  | zero => rfl
  | succ n ih =>
    have hstep : writeVideoFrame ⟨some sp, some w⟩ sp cap im0 =
        (⟨some sp, some w⟩, [WEvent.wrote]) := by
      simp [writeVideoFrame]
    simp [List.replicate_succ, runVideoPhase, hstep, ih]

theorem countOpened_replicate_wrote (N : ℕ) :
    countOpened (List.replicate N WEvent.wrote) = 0 := by
  simp [countOpened, List.filter_replicate]

theorem countReleased_replicate_wrote (N : ℕ) :
    countReleased (List.replicate N WEvent.wrote) = 0 := by
  simp [countReleased, List.filter_replicate]

/-- Claim C5 (confirmed): writing N consecutive frames for a slot whose
computed output path never changes opens exactly one writer handle (and
releases none); when the stored path differs from the new path, an existing
writer is released first (the event order is release, open, write), and the
new writer's frame rate and resolution come from the capture handle when
present, else the fixed fallback 30 fps and the annotated frame's own
dimensions. -/
theorem video_writer_registry_spec :
    (∀ N : ℕ, 0 < N → ∀ (sp : String) (cap : Option Capture) (im0 : Frame0),
      countOpened (runVideoPhase ⟨none, none⟩
          (List.replicate N (sp, cap, im0))).2 = 1 ∧
      countReleased (runVideoPhase ⟨none, none⟩
          (List.replicate N (sp, cap, im0))).2 = 0) ∧
    (∀ (st : VidState) (sp : String) (w : VW) (cap : Capture) (im0 : Frame0),
      st.vid_path ≠ some sp → st.vid_writer = some w →
      (writeVideoFrame st sp (some cap) im0).2 =
        [WEvent.released,
          WEvent.opened (with_suffix_mp4 sp) cap.fps cap.width cap.height,
          WEvent.wrote] ∧
      (writeVideoFrame st sp none im0).2 =
        [WEvent.released,
          WEvent.opened (with_suffix_mp4 sp) 30 im0.width im0.height,
          WEvent.wrote]) ∧
    (∀ (st : VidState) (sp : String) (cap : Capture) (im0 : Frame0),
      st.vid_path ≠ some sp → st.vid_writer = none →
      (writeVideoFrame st sp (some cap) im0).2 =
        [WEvent.opened (with_suffix_mp4 sp) cap.fps cap.width cap.height,
          WEvent.wrote] ∧
      (writeVideoFrame st sp none im0).2 =
        [WEvent.opened (with_suffix_mp4 sp) 30 im0.width im0.height,
          WEvent.wrote]) := by
  refine ⟨?_, ?_, ?_⟩
  · intro N hN sp cap im0
    obtain ⟨n, rfl⟩ : ∃ n, N = n + 1 := ⟨N - 1, by omega⟩
    rw [List.replicate_succ]
    cases cap with
    | some c =>
      have hstep : writeVideoFrame ⟨none, none⟩ sp (some c) im0 =
          (⟨some sp, some ⟨with_suffix_mp4 sp, c.fps, c.width, c.height⟩⟩,
            [WEvent.opened (with_suffix_mp4 sp) c.fps c.width c.height,
              WEvent.wrote]) := by
        simp [writeVideoFrame]
      simp [runVideoPhase, hstep, runVideoPhase_steady, countOpened_append,
        countReleased_append, countOpened_replicate_wrote,
        countReleased_replicate_wrote, countOpened, countReleased]
    | none =>
      have hstep : writeVideoFrame ⟨none, none⟩ sp none im0 =
          (⟨some sp, some ⟨with_suffix_mp4 sp, 30, im0.width, im0.height⟩⟩,
            [WEvent.opened (with_suffix_mp4 sp) 30 im0.width im0.height,
              WEvent.wrote]) := by
        simp [writeVideoFrame]
      simp [runVideoPhase, hstep, runVideoPhase_steady, countOpened_append,
        countReleased_append, countOpened_replicate_wrote,
        countReleased_replicate_wrote, countOpened, countReleased]
  · intro st sp w cap im0 hp hw
    constructor <;> simp [writeVideoFrame, hp, hw]
  · intro st sp cap im0 hp hw
    constructor <;> simp [writeVideoFrame, hp, hw]

/-- Witness for `video_writer_registry_spec`: two consecutive frames with the
same path open one handle; a path change with an open handle releases it
before opening at the capture's (resp. fallback) parameters. -/
theorem video_writer_registry_spec_witness :
    (countOpened (runVideoPhase ⟨none, none⟩
        (List.replicate 2 ("v.mp4", some ⟨25, 640, 480⟩, ⟨640, 480⟩))).2 = 1 ∧
      countReleased (runVideoPhase ⟨none, none⟩
        (List.replicate 2 ("v.mp4", some ⟨25, 640, 480⟩, ⟨640, 480⟩))).2 = 0) ∧
    ((writeVideoFrame ⟨some "a.mp4", some ⟨"a.mp4", 25, 640, 480⟩⟩ "b.avi"
        (some ⟨30, 320, 240⟩) ⟨320, 240⟩).2 =
      [WEvent.released, WEvent.opened (with_suffix_mp4 "b.avi") 30 320 240,
        WEvent.wrote] ∧
      (writeVideoFrame ⟨some "a.mp4", some ⟨"a.mp4", 25, 640, 480⟩⟩ "b.avi"
        none ⟨320, 240⟩).2 =
      [WEvent.released, WEvent.opened (with_suffix_mp4 "b.avi") 30 320 240,
        WEvent.wrote]) ∧
    ((writeVideoFrame ⟨none, none⟩ "c.mkv" (some ⟨24, 100, 200⟩) ⟨100, 200⟩).2 =
      [WEvent.opened (with_suffix_mp4 "c.mkv") 24 100 200, WEvent.wrote] ∧
      (writeVideoFrame ⟨none, none⟩ "c.mkv" none ⟨100, 200⟩).2 =
      [WEvent.opened (with_suffix_mp4 "c.mkv") 30 100 200, WEvent.wrote]) :=
  ⟨video_writer_registry_spec.1 2 (by norm_num) "v.mp4"
      (some ⟨25, 640, 480⟩) ⟨640, 480⟩,
    video_writer_registry_spec.2.1 ⟨some "a.mp4", some ⟨"a.mp4", 25, 640, 480⟩⟩
      "b.avi" ⟨"a.mp4", 25, 640, 480⟩ ⟨30, 320, 240⟩ ⟨320, 240⟩
      (by decide) rfl,
    video_writer_registry_spec.2.2 ⟨none, none⟩ "c.mkv" ⟨24, 100, 200⟩
      ⟨100, 200⟩ (by decide) rfl⟩

/-- Claim C3, counterexample: after a normally terminating run over one video
frame (save_img enabled, video mode), the post-loop code (lines 315-333) emits
no release event and the slot's writer handle is still open when `run`
returns — not zero open handles as claimed. -/
theorem writer_open_at_run_end :
    (postLoop (runVideoPhase ⟨none, none⟩
        [("video.mp4", some ⟨25, 640, 480⟩, ⟨640, 480⟩)]).1).2 = [] ∧
    (postLoop (runVideoPhase ⟨none, none⟩
        [("video.mp4", some ⟨25, 640, 480⟩, ⟨640, 480⟩)]).1).1.vid_writer =
      some ⟨with_suffix_mp4 "video.mp4", 25, 640, 480⟩ ∧
    openHandles (postLoop (runVideoPhase ⟨none, none⟩
        [("video.mp4", some ⟨25, 640, 480⟩, ⟨640, 480⟩)]).1).1 ≠ 0 := by
  refine ⟨rfl, rfl, by decide⟩

/-- Claim C3 as amended: writer handles are released only when the computed
output path of their slot changes; whatever handle is open when the frame loop
finishes is NOT released by the post-loop code — a run over at least one
video/stream frame returns with exactly one handle still open (one more open
than release event in the whole trace). -/
theorem writers_not_released_at_run_end
    (frames : List (String × Option Capture × Frame0)) (h : frames ≠ []) :
    postLoop (runVideoPhase ⟨none, none⟩ frames).1 =
      ((runVideoPhase ⟨none, none⟩ frames).1, []) ∧
    openHandles (runVideoPhase ⟨none, none⟩ frames).1 = 1 ∧
    countOpened (runVideoPhase ⟨none, none⟩ frames).2 =
      countReleased (runVideoPhase ⟨none, none⟩ frames).2 + 1 := by
  obtain ⟨⟨sp, cap, im0⟩, rest, rfl⟩ : ∃ f rest, frames = f :: rest := by
    cases frames with
    | nil => exact absurd rfl h
    | cons f r => exact ⟨f, r, rfl⟩
  have h1 : (writeVideoFrame ⟨none, none⟩ sp cap im0).1.vid_writer.isSome = true := by
    cases cap <;> simp [writeVideoFrame]
  have h2 := runVideoPhase_isSome rest _ h1
  have hopen : openHandles (runVideoPhase ⟨none, none⟩
      ((sp, cap, im0) :: rest)).1 = 1 := by
    have hfst : (runVideoPhase ⟨none, none⟩ ((sp, cap, im0) :: rest)).1 =
        (runVideoPhase (writeVideoFrame ⟨none, none⟩ sp cap im0).1 rest).1 := rfl
    rw [hfst]
    simp [openHandles, h2]
  have hinv := runVideoPhase_handles ((sp, cap, im0) :: rest) ⟨none, none⟩
  have h0 : openHandles (⟨none, none⟩ : VidState) = 0 := rfl
  rw [hopen, h0] at hinv
  exact ⟨rfl, hopen, by omega⟩

/-- Witness for `writers_not_released_at_run_end` on a one-frame video run. -/
theorem writers_not_released_at_run_end_witness :
    postLoop (runVideoPhase ⟨none, none⟩
        [("video.mp4", some ⟨25, 640, 480⟩, ⟨640, 480⟩)]).1 =
      ((runVideoPhase ⟨none, none⟩
        [("video.mp4", some ⟨25, 640, 480⟩, ⟨640, 480⟩)]).1, []) ∧
    openHandles (runVideoPhase ⟨none, none⟩
        [("video.mp4", some ⟨25, 640, 480⟩, ⟨640, 480⟩)]).1 = 1 ∧
    countOpened (runVideoPhase ⟨none, none⟩
        [("video.mp4", some ⟨25, 640, 480⟩, ⟨640, 480⟩)]).2 =
      countReleased (runVideoPhase ⟨none, none⟩
        [("video.mp4", some ⟨25, 640, 480⟩, ⟨640, 480⟩)]).2 + 1 :=
  writers_not_released_at_run_end _ (List.cons_ne_nil _ _)

/-! ## Inference loop failure policy (detect_goose.py lines 187-212, 246-299)

The `for path, im, im0s, vid_cap, s in dataset:` loop has no try/except: an
exception in the preprocessing block (`dt[0]`) or the inference block
(`dt[1]`) propagates and aborts the whole run.  An empty detection list is not
an error: `if len(det):` merely skips the rescale/count/export block, and the
image is still annotated (unchanged) and persisted.  Frames carry flags for
whether the opaque external calls raise; batch size 1 is modelled (one image
per pulled frame). -/

/-- Python exceptions that can abort `run` in the modelled fragment. -/
inductive RunError
  | preprocessFail
  | inferFail
  | indexError
  | zeroDivision
deriving DecidableEq, Repr

/-- One pulled frame, as far as the failure policy consults it. -/
structure FrameStep where
  preprocessOk : Bool
  inferOk : Bool
  det : List Detection
  p_name : String
  p_stem : String
  save_path : String
  W : ℚ
  H : ℚ
deriving DecidableEq, Repr

/-- The loop-carried state: `seen`, `gNum`, and the trace of persisted images
as `(save_path, number of overlay boxes drawn)`. -/
structure LoopState where
  seen : ℕ
  gNum : List GEntry
  persisted : List (String × ℕ)
deriving DecidableEq, Repr

/-- One loop iteration: preprocessing, inference, then the per-image block
(`seen += 1`, the guarded count update, the per-detection exports, the
persistence of the annotated image). -/
def processFrame (cfg : SinkCfg) (names : List String) (st : LoopState)
    (f : FrameStep) : Except RunError LoopState :=
  if !f.preprocessOk then Except.error RunError.preprocessFail
  else if !f.inferOk then Except.error RunError.inferFail
  else
    match updateGNum st.gNum f.det with
    | none => Except.error RunError.indexError
    | some g1 =>
      let art := writeResults cfg names f.p_name f.p_stem f.W f.H f.det
      Except.ok ⟨st.seen + 1, g1,
        st.persisted ++ [(f.save_path, art.overlayBoxes.length)]⟩

/-- The whole frame loop: the first propagated exception aborts it. -/
def runLoop (cfg : SinkCfg) (names : List String) :
    LoopState → List FrameStep → Except RunError LoopState
  | st, [] => Except.ok st
  | st, f :: rest =>
    match processFrame cfg names st f with
    | Except.ok st1 => runLoop cfg names st1 rest
    | Except.error e => Except.error e

theorem runLoop_append (cfg : SinkCfg) (names : List String) :
    ∀ (l1 l2 : List FrameStep) (st : LoopState),
      runLoop cfg names st (l1 ++ l2) =
        match runLoop cfg names st l1 with
        | Except.ok st1 => runLoop cfg names st1 l2
        | Except.error e => Except.error e := by
  intro l1
  induction l1 with
  | nil => intro l2 st; rfl
  | cons f rest ih =>
    intro l2 st
    simp only [List.cons_append, runLoop]
    cases processFrame cfg names st f with
    | ok st1 => exact ih l2 st1
    | error e => rfl

/-- Claim C8 (confirmed): an exception in the preprocessing or inference phase
of any single frame aborts the whole run — whatever frames follow are never
processed and `runLoop` returns that error — whereas a frame with an empty
detection set is not an error: the iteration succeeds, `seen` advances, the
class counts are untouched, and the frame is persisted with zero overlay
boxes. -/
theorem frame_failure_aborts_run_empty_det_ok :
    (∀ (cfg : SinkCfg) (names : List String) (st0 st1 : LoopState)
        (pre : List FrameStep) (bad : FrameStep) (rest : List FrameStep),
      runLoop cfg names st0 pre = Except.ok st1 →
      bad.preprocessOk = false →
      runLoop cfg names st0 (pre ++ bad :: rest) =
        Except.error RunError.preprocessFail) ∧
    (∀ (cfg : SinkCfg) (names : List String) (st0 st1 : LoopState)
        (pre : List FrameStep) (bad : FrameStep) (rest : List FrameStep),
      runLoop cfg names st0 pre = Except.ok st1 →
      bad.preprocessOk = true → bad.inferOk = false →
      runLoop cfg names st0 (pre ++ bad :: rest) =
        Except.error RunError.inferFail) ∧
    (∀ (cfg : SinkCfg) (names : List String) (st : LoopState) (f : FrameStep),
      f.preprocessOk = true → f.inferOk = true → f.det = [] →
      processFrame cfg names st f =
        Except.ok ⟨st.seen + 1, st.gNum,
          st.persisted ++ [(f.save_path, 0)]⟩) := by
  refine ⟨?_, ?_, ?_⟩
  · intro cfg names st0 st1 pre bad rest hpre hbad
    rw [runLoop_append, hpre]
    simp [runLoop, processFrame, hbad]
  · intro cfg names st0 st1 pre bad rest hpre hb1 hb2
    rw [runLoop_append, hpre]
    simp [runLoop, processFrame, hb1, hb2]
  · intro cfg names st f h1 h2 h3
    simp [processFrame, h1, h2, h3, updateGNum, writeResults]

/-- A successfully processed frame with one class-0 detection, used by the
witness. -/
def okFrame : FrameStep :=
  ⟨true, true, [⟨0, 0, 4, 4, 9 / 10, 0⟩], "im.jpg", "im", "/out/im.jpg",
    640, 480⟩

/-- A frame whose preprocessing raises, used by the witness. -/
def badFrame : FrameStep :=
  ⟨false, true, [], "im2.jpg", "im2", "/out/im2.jpg", 640, 480⟩

/-- A frame whose inference raises, used by the witness. -/
def badInferFrame : FrameStep :=
  ⟨true, false, [], "im4.jpg", "im4", "/out/im4.jpg", 640, 480⟩

/-- A frame with an empty detection set, used by the witness. -/
def emptyFrame : FrameStep :=
  ⟨true, true, [], "im3.jpg", "im3", "/out/im3.jpg", 640, 480⟩

/-- The loop state at run start, used by the witness. -/
def stInit : LoopState :=
  ⟨0, [GEntry.int 0, GEntry.int 0, GEntry.int 0], []⟩

/-- Witness for `frame_failure_aborts_run_empty_det_ok`: one good frame, then
a frame whose preprocessing raises (a further frame is queued but never
reached), and separately a successful empty-detection iteration. -/
theorem frame_failure_aborts_run_empty_det_ok_witness :
    runLoop cfgAll namesGE stInit ([okFrame] ++ badFrame :: [emptyFrame]) =
      Except.error RunError.preprocessFail ∧
    runLoop cfgAll namesGE stInit ([okFrame] ++ badInferFrame :: [emptyFrame]) =
      Except.error RunError.inferFail ∧
    processFrame cfgAll namesGE stInit emptyFrame =
      Except.ok ⟨stInit.seen + 1, stInit.gNum,
        stInit.persisted ++ [(emptyFrame.save_path, 0)]⟩ :=
  ⟨frame_failure_aborts_run_empty_det_ok.1 cfgAll namesGE stInit
      ⟨1, [GEntry.str "1", GEntry.int 0, GEntry.int 0], [("/out/im.jpg", 1)]⟩
      [okFrame] badFrame [emptyFrame] rfl rfl,
    frame_failure_aborts_run_empty_det_ok.2.1 cfgAll namesGE stInit
      ⟨1, [GEntry.str "1", GEntry.int 0, GEntry.int 0], [("/out/im.jpg", 1)]⟩
      [okFrame] badInferFrame [emptyFrame] rfl rfl rfl,
    frame_failure_aborts_run_empty_det_ok.2.2 cfgAll namesGE stInit emptyFrame
      rfl rfl rfl⟩

/-! ## End-of-run speed computation and summary emission
(detect_goose.py lines 318-333) -/

/-- The three `Profile` accumulators `dt` at the end of the loop (seconds of
preprocessing, inference and NMS time). -/
structure Profiles where
  t0 : ℚ
  t1 : ℚ
  t2 : ℚ
deriving DecidableEq, Repr

/-- `x.t / seen * 1E3` (line 320): Python division raises `ZeroDivisionError`
when `seen` is 0. -/
def speedPerImage (t : ℚ) (seen : ℕ) : Except RunError ℚ :=
  if seen = 0 then Except.error RunError.zeroDivision
  else Except.ok (t / seen * 1000)

/-- Lines 318-333: compute the three per-image speeds, then build and print
the JSON record; the speed computation precedes the emission, so its exception
suppresses the summary. -/
def printResults (dt : Profiles) (seen : ℕ) (save_dir_abs : String)
    (gNum : List GEntry) : Except RunError ResultJson :=
  match speedPerImage dt.t0 seen with
  | Except.error e => Except.error e
  | Except.ok _ =>
    match speedPerImage dt.t1 seen with
    | Except.error e => Except.error e
    | Except.ok _ =>
      match speedPerImage dt.t2 seen with
      | Except.error e => Except.error e
      | Except.ok _ => Except.ok (emitResult save_dir_abs gNum)

/-- Claim C10 (confirmed): when the frame provider yields zero frames (`seen`
stays 0), the per-phase speed computation raises a division-by-zero error and
the final JSON record is never emitted; the record is only produced when at
least one image was processed. -/
theorem zero_frames_division_error (dt : Profiles) (dir : String)
    (g : List GEntry) :
    printResults dt 0 dir g = Except.error RunError.zeroDivision ∧
    ∀ (seen : ℕ) (r : ResultJson),
      printResults dt seen dir g = Except.ok r → 0 < seen := by
  constructor
  · rfl
  · intro seen r h
    cases seen with
    | zero => simp [printResults, speedPerImage] at h
    | succ n => omega

/-- Witness for `zero_frames_division_error` at concrete accumulators. -/
theorem zero_frames_division_error_witness :
    printResults ⟨1, 2, 3⟩ 0 "/abs/out"
        [GEntry.int 0, GEntry.int 0, GEntry.int 0] =
      Except.error RunError.zeroDivision :=
  (zero_frames_division_error ⟨1, 2, 3⟩ "/abs/out"
    [GEntry.int 0, GEntry.int 0, GEntry.int 0]).1

end DetectGoose
